import Mathlib

/-!
Verification of the network-prior / symbolic-evaluation-cache core of
theano_pyglm, shallow-embedded from `src/utils/theano_func_wrapper.py` and
`src/components/graph.py`.

A Python dict whose values are either theano symbolic variables or nested
dicts of the same shape (the `syms` argument of `seval`) is embedded as an
association list over `SNode`; leaf symbols are identified by their name.
Value dicts (`vals`, `defaults`) are embedded as `PyVal`, with an explicit
`vnone` constructor for the Python value `None`; a lookup that raises and is
caught (`try ... except ... pass`) leaves the variable at `None`, which
`pyget` models by returning `vnone`.
-/

/-- A node of a hierarchical symbol dictionary: either a leaf theano symbol
(identified by name) or a nested dictionary. -/
inductive SNode where
  | sym : String → SNode
  | sub : List (String × SNode) → SNode

/-- A Python value as seen by `_extract_vals`: `None`, a base value
(scalar or array, content-modelled over `Int`), or a nested dictionary. -/
inductive Val where
  | scl : Int → Val
  | arr : List Int → Val
deriving DecidableEq, Repr

/-- A Python object bound in `vals`/`defaults`: `None`, a base value, or a
nested dict. -/
inductive PyVal where
  | vnone : PyVal
  | base : Val → PyVal
  | dict : List (String × PyVal) → PyVal

/-- `v is None` check from `_extract_vals`. -/
def isVNone : PyVal → Bool
  | .vnone => true
  | _ => false

/-- Models `obj[k]` under the `try ... except ... pass` pattern of
`_extract_vals`: on a dict, a missing key (raised `KeyError`, caught) and an
explicit `None` entry both leave the variable `None`; on a non-dict
(e.g. `None` itself) the raised error is caught likewise. -/
def pyget (v : PyVal) (k : String) : PyVal :=
  match v with
  | .dict d =>
    match d.lookup k with
    | some x => x
    | none => .vnone
  | _ => .vnone

/-- Python `sorted(d.items(), key=lambda t: t[0])`: a stable sort of the
dictionary items by key, ascending in the lexicographic string order. -/
def sortByKey (d : List (String × SNode)) : List (String × SNode) :=
  d.insertionSort (fun a b => a.1 ≤ b.1)

/-- Permuting a list preserves its `sizeOf`. -/
theorem sizeOf_of_perm {α : Type} [SizeOf α] {l1 l2 : List α}
    (h : l1.Perm l2) : sizeOf l1 = sizeOf l2 := by
  induction h with
  | nil => rfl
  | cons a _ ih => simp [ih]
  | swap a b l => simp; omega
  | trans _ _ ih1 ih2 => omega

theorem sizeOf_sortByKey (d : List (String × SNode)) :
    sizeOf (sortByKey d) = sizeOf d :=
  sizeOf_of_perm (List.perm_insertionSort _ d)

mutual

/-- `_flatten` from `theano_func_wrapper.py`: pack a hierarchical dictionary
of variables into a list, visiting the items of every level in sorted key
order; dict values are flattened recursively, leaves are appended. -/
def _flatten (d : List (String × SNode)) : List String :=
  flattenItems (sortByKey d)
termination_by sizeOf d + 1
decreasing_by simp_wf; simp [sizeOf_sortByKey]

/-- The loop body of `_flatten` over the already-sorted item list. -/
def flattenItems : List (String × SNode) → List String
  | [] => []
  | (_, v) :: rest =>
    match v with
    | .sub d2 => _flatten d2 ++ flattenItems rest
    | .sym s => s :: flattenItems rest
termination_by l => sizeOf l
decreasing_by all_goals (simp_wf; try omega)

end

/-- The error message raised by `_extract_vals` when a symbol has neither a
bound value nor a default. -/
def missingMsg (sk : String) : String :=
  "Key " ++ sk ++ " not found in either vals or defaults!"

mutual

/-- `_extract_vals` from `theano_func_wrapper.py`: walk the symbol dictionary
in sorted key order; for each key, look the key up in `vals` and in
`defaults` (a caught exception or an explicit `None` both yield `None`);
raise if both are `None`; recurse on sub-dicts; for a leaf append the `vals`
binding if it is not `None`, else the default. -/
def _extract_vals (syms : List (String × SNode)) (vals defaults : PyVal) :
    Except String (List PyVal) :=
  extractItems (sortByKey syms) vals defaults
termination_by sizeOf syms + 1
decreasing_by simp_wf; simp [sizeOf_sortByKey]

/-- The loop body of `_extract_vals` over the already-sorted item list. -/
def extractItems : List (String × SNode) → PyVal → PyVal →
    Except String (List PyVal)
  | [], _, _ => .ok []
  | (sk, sv) :: rest, vals, defaults =>
    let vv := pyget vals sk
    let vd := pyget defaults sk
    if isVNone vv && isVNone vd then
      .error (missingMsg sk)
    else
      match sv with
      | .sub d2 => do
        let lv ← _extract_vals d2 vv vd
        let lrest ← extractItems rest vals defaults
        pure (lv ++ lrest)
      | .sym _ => do
        let lrest ← extractItems rest vals defaults
        pure ((if isVNone vv then vd else vv) :: lrest)
termination_by l _ _ => sizeOf l
decreasing_by all_goals (simp_wf; try omega)

end

mutual

/-- Characterization device (not itself in the source): the leaves of a
symbol dictionary in the traversal order of `_flatten`, each paired with the
key path leading to it. -/
def leavesD (d : List (String × SNode)) : List (List String × String) :=
  leavesItems (sortByKey d)
termination_by sizeOf d + 1
decreasing_by simp_wf; simp [sizeOf_sortByKey]

/-- Loop body of `leavesD` over the already-sorted item list. -/
def leavesItems : List (String × SNode) → List (List String × String)
  | [] => []
  | (k, v) :: rest =>
    match v with
    | .sub d2 => (leavesD d2).map (fun p => (k :: p.1, p.2)) ++ leavesItems rest
    | .sym s => ([k], s) :: leavesItems rest
termination_by l => sizeOf l
decreasing_by all_goals (simp_wf; try omega)

end

/-- Characterization device: the value `_extract_vals` binds to a leaf at a
given key path — descend through `vals` and `defaults` in parallel, and at
the leaf take the `vals` side unless it is `None`. -/
def resolvePath : PyVal → PyVal → List String → PyVal
  | vals, defaults, [] => if isVNone vals then defaults else vals
  | vals, defaults, k :: p => resolvePath (pyget vals k) (pyget defaults k) p

mutual

/-- Characterization device: the first key (in `_extract_vals` traversal
order) whose value is `None`-or-missing in both `vals` and `defaults`, if
any. -/
def firstMiss (d : List (String × SNode)) (vals defaults : PyVal) :
    Option String :=
  firstMissItems (sortByKey d) vals defaults
termination_by sizeOf d + 1
decreasing_by simp_wf; simp [sizeOf_sortByKey]

/-- Loop body of `firstMiss` over the already-sorted item list. -/
def firstMissItems : List (String × SNode) → PyVal → PyVal → Option String
  | [], _, _ => none
  | (sk, sv) :: rest, vals, defaults =>
    let vv := pyget vals sk
    let vd := pyget defaults sk
    if isVNone vv && isVNone vd then
      some sk
    else
      match sv with
      | .sub d2 =>
        match firstMiss d2 vv vd with
        | some k => some k
        | none => firstMissItems rest vals defaults
      | .sym _ => firstMissItems rest vals defaults
termination_by l _ _ => sizeOf l
decreasing_by all_goals (simp_wf; try omega)

end

theorem flattenItems_eq_leaves : ∀ (n : ℕ) (l : List (String × SNode)),
    sizeOf l ≤ n → flattenItems l = (leavesItems l).map Prod.snd := by
  intro n
  induction n with
  | zero =>
    intro l h
    cases l with
    | nil => simp [flattenItems, leavesItems]
    | cons p rest =>
      exfalso
      simp only [List.cons.sizeOf_spec] at h
      omega
  | succ n ih =>
    intro l h
    match l with
    | [] => simp [flattenItems, leavesItems]
    | (k, .sym s) :: rest =>
      have hr : sizeOf rest ≤ n := by
        simp only [List.cons.sizeOf_spec] at h; omega
      simp [flattenItems, leavesItems, ih rest hr]
    | (k, .sub d2) :: rest =>
      have hr : sizeOf rest ≤ n := by
        simp only [List.cons.sizeOf_spec] at h; omega
      have hd : sizeOf (sortByKey d2) ≤ n := by
        rw [sizeOf_sortByKey]
        simp only [List.cons.sizeOf_spec, Prod.mk.sizeOf_spec, SNode.sub.sizeOf_spec] at h
        omega
      simp [flattenItems, leavesItems, _flatten, leavesD, ih _ hd, ih rest hr,
        List.map_map, Function.comp]

theorem extractItems_eq_leaves : ∀ (n : ℕ) (l : List (String × SNode))
    (vals defaults : PyVal) (out : List PyVal), sizeOf l ≤ n →
    extractItems l vals defaults = .ok out →
    out = (leavesItems l).map (fun p => resolvePath vals defaults p.1) := by
  intro n
  induction n with
  | zero =>
    intro l vals defaults out h hok
    cases l with
    | nil =>
      simp only [extractItems] at hok
      cases hok
      simp [leavesItems]
    | cons p rest =>
      exfalso
      simp only [List.cons.sizeOf_spec] at h
      omega
  | succ n ih =>
    intro l vals defaults out h hok
    match l with
    | [] =>
      simp only [extractItems] at hok
      cases hok
      simp [leavesItems]
    | (sk, .sym s) :: rest =>
      have hr : sizeOf rest ≤ n := by
        simp only [List.cons.sizeOf_spec] at h; omega
      simp only [extractItems] at hok
      by_cases hc : (isVNone (pyget vals sk) && isVNone (pyget defaults sk)) = true
      · rw [if_pos hc] at hok; cases hok
      · rw [if_neg hc] at hok
        cases h2 : extractItems rest vals defaults with
        | error e => rw [h2] at hok; cases hok
        | ok lrest =>
          rw [h2] at hok
          simp only [bind, Except.bind, pure, Except.pure] at hok
          cases hok
          simp [leavesItems, ih rest vals defaults lrest hr h2, resolvePath]
    | (sk, .sub d2) :: rest =>
      have hr : sizeOf rest ≤ n := by
        simp only [List.cons.sizeOf_spec] at h; omega
      have hd : sizeOf (sortByKey d2) ≤ n := by
        rw [sizeOf_sortByKey]
        simp only [List.cons.sizeOf_spec, Prod.mk.sizeOf_spec, SNode.sub.sizeOf_spec] at h
        omega
      simp only [extractItems] at hok
      by_cases hc : (isVNone (pyget vals sk) && isVNone (pyget defaults sk)) = true
      · rw [if_pos hc] at hok; cases hok
      · rw [if_neg hc] at hok
        cases h2 : _extract_vals d2 (pyget vals sk) (pyget defaults sk) with
        | error e => rw [h2] at hok; cases hok
        | ok lv =>
          rw [h2] at hok
          cases h3 : extractItems rest vals defaults with
          | error e => rw [h3] at hok; cases hok
          | ok lrest =>
            rw [h3] at hok
            simp only [bind, Except.bind, pure, Except.pure] at hok
            cases hok
            rw [_extract_vals] at h2
            have hlv := ih (sortByKey d2) (pyget vals sk) (pyget defaults sk) lv hd h2
            simp [leavesItems, leavesD, hlv, ih rest vals defaults lrest hr h3,
              List.map_map, Function.comp, resolvePath]

theorem extractItems_nil (vals defaults : PyVal) :
    extractItems [] vals defaults = .ok [] := by
  rw [extractItems.eq_def]

theorem extractItems_cons (sk : String) (sv : SNode)
    (rest : List (String × SNode)) (vals defaults : PyVal) :
    extractItems ((sk, sv) :: rest) vals defaults =
      (if (isVNone (pyget vals sk) && isVNone (pyget defaults sk)) = true then
        .error (missingMsg sk)
      else
        match sv with
        | .sub d2 => do
          let lv ← _extract_vals d2 (pyget vals sk) (pyget defaults sk)
          let lrest ← extractItems rest vals defaults
          pure (lv ++ lrest)
        | .sym _ => do
          let lrest ← extractItems rest vals defaults
          pure ((if isVNone (pyget vals sk) then pyget defaults sk
                 else pyget vals sk) :: lrest)) := by
  rw [extractItems.eq_def]

theorem firstMissItems_nil (vals defaults : PyVal) :
    firstMissItems [] vals defaults = none := by
  rw [firstMissItems.eq_def]

theorem firstMissItems_cons (sk : String) (sv : SNode)
    (rest : List (String × SNode)) (vals defaults : PyVal) :
    firstMissItems ((sk, sv) :: rest) vals defaults =
      (if (isVNone (pyget vals sk) && isVNone (pyget defaults sk)) = true then
        some sk
      else
        match sv with
        | .sub d2 =>
          (match firstMiss d2 (pyget vals sk) (pyget defaults sk) with
           | some k => some k
           | none => firstMissItems rest vals defaults)
        | .sym _ => firstMissItems rest vals defaults) := by
  rw [firstMissItems.eq_def]

theorem extractItems_ok_of_nomiss : ∀ (n : ℕ) (l : List (String × SNode))
    (vals defaults : PyVal), sizeOf l ≤ n →
    firstMissItems l vals defaults = none →
    ∃ out, extractItems l vals defaults = .ok out := by
  intro n
  induction n with
  | zero =>
    intro l vals defaults h hm
    cases l with
    | nil => exact ⟨[], by simp [extractItems]⟩
    | cons p rest =>
      exfalso
      simp only [List.cons.sizeOf_spec] at h
      omega
  | succ n ih =>
    intro l vals defaults h hm
    match l with
    | [] => exact ⟨[], by simp [extractItems]⟩
    | (sk, sv) :: rest =>
      have hr : sizeOf rest ≤ n := by
        simp only [List.cons.sizeOf_spec] at h; omega
      rw [firstMissItems_cons] at hm
      rw [extractItems_cons]
      by_cases hc : (isVNone (pyget vals sk) && isVNone (pyget defaults sk)) = true
      · rw [if_pos hc] at hm; cases hm
      · rw [if_neg hc] at hm
        rw [if_neg hc]
        cases sv with
        | sym s =>
          dsimp only at hm ⊢
          obtain ⟨lrest, h3⟩ := ih rest vals defaults hr hm
          rw [h3]
          exact ⟨_, rfl⟩
        | sub d2 =>
          dsimp only at hm ⊢
          have hd : sizeOf (sortByKey d2) ≤ n := by
            rw [sizeOf_sortByKey]
            simp only [List.cons.sizeOf_spec, Prod.mk.sizeOf_spec, SNode.sub.sizeOf_spec] at h
            omega
          cases h2 : firstMiss d2 (pyget vals sk) (pyget defaults sk) with
          | some kk => rw [h2] at hm; cases hm
          | none =>
            rw [h2] at hm
            rw [firstMiss] at h2
            obtain ⟨lv, h3⟩ := ih (sortByKey d2) _ _ hd h2
            obtain ⟨lrest, h4⟩ := ih rest vals defaults hr hm
            rw [_extract_vals, h3, h4]
            exact ⟨_, rfl⟩

theorem extractItems_err_of_miss : ∀ (n : ℕ) (l : List (String × SNode))
    (vals defaults : PyVal) (k : String), sizeOf l ≤ n →
    firstMissItems l vals defaults = some k →
    extractItems l vals defaults = .error (missingMsg k) := by
  intro n
  induction n with
  | zero =>
    intro l vals defaults k h hm
    cases l with
    | nil => rw [firstMissItems_nil] at hm; cases hm
    | cons p rest =>
      exfalso
      simp only [List.cons.sizeOf_spec] at h
      omega
  | succ n ih =>
    intro l vals defaults k h hm
    match l with
    | [] => rw [firstMissItems_nil] at hm; cases hm
    | (sk, sv) :: rest =>
      have hr : sizeOf rest ≤ n := by
        simp only [List.cons.sizeOf_spec] at h; omega
      rw [firstMissItems_cons] at hm
      rw [extractItems_cons]
      by_cases hc : (isVNone (pyget vals sk) && isVNone (pyget defaults sk)) = true
      · rw [if_pos hc] at hm
        rw [if_pos hc]
        cases hm
        rfl
      · rw [if_neg hc] at hm
        rw [if_neg hc]
        cases sv with
        | sym s =>
          dsimp only at hm ⊢
          rw [ih rest vals defaults k hr hm]
          rfl
        | sub d2 =>
          dsimp only at hm ⊢
          have hd : sizeOf (sortByKey d2) ≤ n := by
            rw [sizeOf_sortByKey]
            simp only [List.cons.sizeOf_spec, Prod.mk.sizeOf_spec, SNode.sub.sizeOf_spec] at h
            omega
          cases h2 : firstMiss d2 (pyget vals sk) (pyget defaults sk) with
          | some kk =>
            rw [h2] at hm
            cases hm
            rw [firstMiss] at h2
            rw [_extract_vals, ih (sortByKey d2) _ _ k hd h2]
            rfl
          | none =>
            rw [h2] at hm
            rw [firstMiss] at h2
            obtain ⟨lv, h3⟩ := extractItems_ok_of_nomiss n (sortByKey d2) _ _ hd h2
            rw [_extract_vals, h3]
            rw [ih rest vals defaults k hr hm]
            rfl

/-!
Embedding of `src/components/graph.py`. Float arithmetic is modelled over
`ℝ`; matrices over `Fin N → Fin N → ℝ`. For each variant the arguments of
every `log` occurring in its `log_p` expression are named `..._logArg...`
definitions, exactly as they appear in the source.
-/

/-- Attributes assigned by `CompleteGraphModel.__init__`, in program order. -/
def completeGraph_attrs : List String := ["model", "A", "log_p"]

/-- Attributes assigned by `ErdosRenyiGraphModel.__init__`, in program
order. -/
def erdosRenyiGraph_attrs : List String :=
  ["model", "prms", "rho", "pA", "A", "lkhd_scale", "lkhd", "log_p"]

/-- Attributes assigned by `StochasticBlockGraphModel.__init__`, in program
order. -/
def sbmGraph_attrs : List String :=
  ["model", "prms", "N", "R", "B", "Y", "Yv", "Ym", "pA", "alpha",
   "b0", "b1", "alpha0", "A", "log_p"]

/-- Attributes assigned by `LatentDistanceGraphModel.__init__`, in program
order. -/
def ldGraph_attrs : List String :=
  ["model", "prms", "N", "N_dims", "location_prior", "L", "Lm", "D",
   "delta", "A", "pA", "lkhd_scale", "lkhd", "log_p"]

/-- `theano.shared(value=1.0, name='lkhd_scale')`: the initial value of the
likelihood-scale shared variable in the ErdosRenyi and LatentDistance
models. -/
noncomputable def lkhd_scale_default : ℝ := 1

noncomputable section

/-- `CompleteGraphModel`: `self.A = T.ones((N, N))`. -/
def complete_A (N : ℕ) : Fin N → Fin N → ℝ := fun _ _ => 1

/-- `CompleteGraphModel`: `self.log_p = T.constant(0.0)` — a constant, so
the log probability of every input is this value. -/
def complete_log_p : ℝ := 0

/-- Modelled from the spec: `CompleteGraphModel` inherits `sample` from the
external `Component` base class (`component.py`, which is not under `src/`);
the spec states that for any N it returns the N×N all-ones adjacency
matrix, which agrees with the constant `A = T.ones((N, N))` built in
`CompleteGraphModel.__init__`. -/
def complete_sample (N : ℕ) : Fin N → Fin N → ℝ := complete_A N

/-- `ErdosRenyiGraphModel`: `self.rho = self.prms['rho'] * np.ones((N,N))`,
then `self.rho[np.diag_indices(N)] = self.prms['rho_refractory']` when that
key is present. -/
def er_rho (N : ℕ) (rho0 : ℝ) (rr : Option ℝ) (i j : Fin N) : ℝ :=
  match rr with
  | some r => if i = j then r else rho0
  | none => rho0

/-- The argument of the first `np.log` in the ErdosRenyi likelihood:
`np.minimum(1.0-1e-8, self.rho)`. -/
def er_logArgA (N : ℕ) (rho0 : ℝ) (rr : Option ℝ) (i j : Fin N) : ℝ :=
  min (1 - 1e-8) (er_rho N rho0 rr i j)

/-- The argument of the second `np.log` in the ErdosRenyi likelihood:
`np.maximum(1e-8, 1.0 - self.rho)`. -/
def er_logArgNotA (N : ℕ) (rho0 : ℝ) (rr : Option ℝ) (i j : Fin N) : ℝ :=
  max 1e-8 (1 - er_rho N rho0 rr i j)

/-- `ErdosRenyiGraphModel`: `self.lkhd = T.sum(A * log(min(1-1e-8, rho)) +
(1-A) * log(max(1e-8, 1-rho)))`. -/
def er_lkhd (N : ℕ) (rho0 : ℝ) (rr : Option ℝ) (A : Fin N → Fin N → ℝ) : ℝ :=
  ∑ i, ∑ j, (A i j * Real.log (er_logArgA N rho0 rr i j)
    + (1 - A i j) * Real.log (er_logArgNotA N rho0 rr i j))

/-- `ErdosRenyiGraphModel`: `self.log_p = self.lkhd_scale * self.lkhd`. -/
def er_log_p (N : ℕ) (rho0 : ℝ) (rr : Option ℝ) (lkhd_scale : ℝ)
    (A : Fin N → Fin N → ℝ) : ℝ :=
  lkhd_scale * er_lkhd N rho0 rr A

/-- `StochasticBlockGraphModel`: `self.pA = self.B[self.Ym, T.transpose(self.Ym)]`,
i.e. entry (i,j) is `B[Y_i, Y_j]`. -/
def sbm_pA {N R : ℕ} (B : Fin R → Fin R → ℝ) (Y : Fin N → Fin R)
    (i j : Fin N) : ℝ :=
  B (Y i) (Y j)

/-- Argument of `T.log(self.B)` in the SBM prior term: `B` itself,
unclamped. -/
def sbm_logArgB {R : ℕ} (B : Fin R → Fin R → ℝ) (r s : Fin R) : ℝ := B r s

/-- Argument of `T.log(1 - self.B)` in the SBM prior term: `1 - B`,
unclamped. -/
def sbm_logArgNotB {R : ℕ} (B : Fin R → Fin R → ℝ) (r s : Fin R) : ℝ :=
  1 - B r s

/-- Argument of `T.log(self.pA)` in the SBM likelihood: `pA` itself,
unclamped. -/
def sbm_logArgA {N R : ℕ} (B : Fin R → Fin R → ℝ) (Y : Fin N → Fin R)
    (i j : Fin N) : ℝ :=
  sbm_pA B Y i j

/-- Argument of `T.log(1 - self.pA)` in the SBM likelihood: `1 - pA`,
unclamped. -/
def sbm_logArgNotA {N R : ℕ} (B : Fin R → Fin R → ℝ) (Y : Fin N → Fin R)
    (i j : Fin N) : ℝ :=
  1 - sbm_pA B Y i j

/-- SBM `log_p_B = T.sum((b0-1) * T.log(B) + (b1-1) * T.log(1 - B))`. -/
def sbm_log_p_B {R : ℕ} (b0 b1 : ℝ) (B : Fin R → Fin R → ℝ) : ℝ :=
  ∑ r, ∑ s, ((b0 - 1) * Real.log (sbm_logArgB B r s)
    + (b1 - 1) * Real.log (sbm_logArgNotB B r s))

/-- SBM `log_p_alpha = T.sum((alpha0-1) * T.log(alpha))`. -/
def sbm_log_p_alpha {R : ℕ} (alpha0 alpha : Fin R → ℝ) : ℝ :=
  ∑ r, (alpha0 r - 1) * Real.log (alpha r)

/-- SBM `log_p_A = T.sum(A * T.log(pA) + (1-A) * T.log(1-pA))`. -/
def sbm_log_p_A {N R : ℕ} (A : Fin N → Fin N → ℝ) (B : Fin R → Fin R → ℝ)
    (Y : Fin N → Fin R) : ℝ :=
  ∑ i, ∑ j, (A i j * Real.log (sbm_logArgA B Y i j)
    + (1 - A i j) * Real.log (sbm_logArgNotA B Y i j))

/-- `StochasticBlockGraphModel`: `self.log_p = log_p_B + log_p_alpha +
log_p_A`; note there is no `lkhd_scale` factor in this variant. -/
def sbm_log_p {N R : ℕ} (b0 b1 : ℝ) (alpha0 alpha : Fin R → ℝ)
    (A : Fin N → Fin N → ℝ) (B : Fin R → Fin R → ℝ) (Y : Fin N → Fin R) : ℝ :=
  sbm_log_p_B b0 b1 B + sbm_log_p_alpha alpha0 alpha + sbm_log_p_A A B Y

/-- `LatentDistanceGraphModel`: `self.D = T.pow(L1-L2, 2).sum(axis=2)`, the
squared Euclidean distance between the latent locations of nodes i and j. -/
def ld_D {N Dd : ℕ} (L : Fin N → Fin Dd → ℝ) (i j : Fin N) : ℝ :=
  ∑ d, (L i d - L j d) ^ 2

/-- `LatentDistanceGraphModel`: `self.pA = T.exp(-0.5*self.D/self.delta**2)`,
then `self.pA += T.eye(self.N) * (rho_refractory - self.pA)` when the
`rho_refractory` key is present. -/
def ld_pA {N Dd : ℕ} (rr : Option ℝ) (delta : ℝ) (L : Fin N → Fin Dd → ℝ)
    (i j : Fin N) : ℝ :=
  let p := Real.exp (-0.5 * ld_D L i j / delta ^ 2)
  match rr with
  | some r => p + (if i = j then 1 else 0) * (r - p)
  | none => p

/-- Argument of `T.log(self.pA)` in the LatentDistance likelihood: `pA`
itself, unclamped. -/
def ld_logArgA {N Dd : ℕ} (rr : Option ℝ) (delta : ℝ)
    (L : Fin N → Fin Dd → ℝ) (i j : Fin N) : ℝ :=
  ld_pA rr delta L i j

/-- Argument of `T.log(1 - self.pA)` in the LatentDistance likelihood:
`1 - pA`, unclamped. -/
def ld_logArgNotA {N Dd : ℕ} (rr : Option ℝ) (delta : ℝ)
    (L : Fin N → Fin Dd → ℝ) (i j : Fin N) : ℝ :=
  1 - ld_pA rr delta L i j

/-- `LatentDistanceGraphModel`: `self.lkhd = T.sum(A * T.log(pA) + (1-A) *
T.log(1-pA))`. -/
def ld_lkhd {N Dd : ℕ} (rr : Option ℝ) (delta : ℝ) (L : Fin N → Fin Dd → ℝ)
    (A : Fin N → Fin N → ℝ) : ℝ :=
  ∑ i, ∑ j, (A i j * Real.log (ld_logArgA rr delta L i j)
    + (1 - A i j) * Real.log (ld_logArgNotA rr delta L i j))

/-- `LatentDistanceGraphModel`: `self.log_p = self.lkhd_scale * self.lkhd +
self.location_prior.log_p(self.Lm)`; the location prior is an external
collaborator, embedded as the function `locp`. -/
def ld_log_p {N Dd : ℕ} (rr : Option ℝ) (delta : ℝ) (L : Fin N → Fin Dd → ℝ)
    (A : Fin N → Fin N → ℝ) (lkhd_scale : ℝ)
    (locp : (Fin N → Fin Dd → ℝ) → ℝ) : ℝ :=
  lkhd_scale * ld_lkhd rr delta L A + locp L

end

/-- A configuration value in the `model['network']['graph']` dictionary:
an integer, a float, a boolean, a string, or an opaque external object
(such as the location-prior sub-configuration). -/
inductive PrmVal where
  | int : Int → PrmVal
  | real : ℝ → PrmVal
  | bool : Bool → PrmVal
  | str : String → PrmVal
  | ext : String → PrmVal

/-- Python `d[k]` on a config dictionary: raises `KeyError` when absent. -/
def pyKeyGet (d : List (String × PrmVal)) (k : String) : Except String PrmVal :=
  match d.lookup k with
  | some v => .ok v
  | none => .error ("KeyError: " ++ k)

/-- The config reads of `ErdosRenyiGraphModel.__init__`: `self.prms['rho']`
(raising on absence), then `'rho_refractory' in self.prms` (a membership
test, never raising). -/
structure ERInit where
  rho : PrmVal
  rho_refractory : Option PrmVal

def erdosRenyi_init (prms : List (String × PrmVal)) : Except String ERInit := do
  let rho ← pyKeyGet prms "rho"
  .ok { rho := rho, rho_refractory := prms.lookup "rho_refractory" }

/-- The config reads of `StochasticBlockGraphModel.__init__`:
`self.prms['R']`, `self.prms['b0']`, `self.prms['b1']`,
`self.prms['alpha0']`, in program order. -/
structure SBMInit where
  R : PrmVal
  b0 : PrmVal
  b1 : PrmVal
  alpha0 : PrmVal

def sbm_init (prms : List (String × PrmVal)) : Except String SBMInit := do
  let r ← pyKeyGet prms "R"
  let b0 ← pyKeyGet prms "b0"
  let b1 ← pyKeyGet prms "b1"
  let alpha0 ← pyKeyGet prms "alpha0"
  .ok { R := r, b0 := b0, b1 := b1, alpha0 := alpha0 }

/-- The config reads of `LatentDistanceGraphModel.__init__`:
`self.prms['N_dims']`, then `create_prior(self.prms['location_prior'])`
(the prior construction itself is external), then
`'rho_refractory' in self.prms` (a membership test, never raising). Note
`__init__` reads neither `'sorted'` nor `'delta'`. -/
structure LDInit where
  N_dims : PrmVal
  location_prior : PrmVal
  rho_refractory : Option PrmVal

def latentDistance_init (prms : List (String × PrmVal)) :
    Except String LDInit := do
  let nd ← pyKeyGet prms "N_dims"
  let lp ← pyKeyGet prms "location_prior"
  .ok { N_dims := nd, location_prior := lp,
        rho_refractory := prms.lookup "rho_refractory" }

/-- The config reads of `LatentDistanceGraphModel.sample`, in program order:
drawing `L = self.location_prior.sample(...)` touches no config key; then
`if self.prms['sorted']:` reads `'sorted'` unconditionally, and
`delta = self.prms['delta']` reads `'delta'`; the remaining statements
(`pA.eval`, the Bernoulli draws) are numeric and read no further config
keys. A missing key raises `KeyError`. -/
def latentDistance_sample_reads (prms : List (String × PrmVal)) :
    Except String (PrmVal × PrmVal) := do
  let srt ← pyKeyGet prms "sorted"
  let delta ← pyKeyGet prms "delta"
  .ok (srt, delta)

/-- ASCII lower-casing of one character, as Python `str.lower()` does on
the ASCII type strings used for the graph `type` option. -/
def lowerChar (c : Char) : Char :=
  if c.isUpper then Char.ofNat (c.toNat + 32) else c

/-- Python `s.lower()` on an ASCII string: lower-case every character. -/
def pyLower (s : String) : String :=
  ⟨s.data.map lowerChar⟩

/-- The model object produced by `create_graph_component`, carrying the
values its `__init__` read from the config. -/
inductive GraphModel where
  | complete : GraphModel
  | erdosRenyi : ERInit → GraphModel
  | sbm : SBMInit → GraphModel
  | distance : LDInit → GraphModel

/-- `create_graph_component` from `graph.py`: read
`model['network']['graph']['type']`, lower-case it, dispatch on the
recognized strings, and otherwise raise
`Exception("Unrecognized graph model: %s" % type)`; a non-string type value
would fail at `.lower()`. -/
def create_graph_component (prms : List (String × PrmVal)) :
    Except String GraphModel :=
  match pyKeyGet prms "type" with
  | .error e => .error e
  | .ok tv =>
    match tv with
    | .str s =>
      let t := pyLower s
      if t = "complete" then .ok .complete
      else if t = "erdos_renyi" ∨ t = "erdosrenyi" then
        (erdosRenyi_init prms).map .erdosRenyi
      else if t = "sbm" then (sbm_init prms).map .sbm
      else if t = "distance" then (latentDistance_init prms).map .distance
      else .error ("Unrecognized graph model: " ++ t)
    | _ => .error "AttributeError: lower"

/-!
Embedding of the `seval` cache from `theano_func_wrapper.py`. A theano
expression is identified by a number (Python dict keys compare theano
objects by identity). `hash_value` maps an ndarray to the sha1 of its
contents and any other value to itself; the model makes content hashing
injective, which is what content addressing is for.
-/

/-- The result of `hash_value` on a given value: an ndarray is replaced by
its content digest, anything else is used verbatim. -/
inductive HVal where
  | plain : Val → HVal
  | sha1 : List Int → HVal
deriving DecidableEq

/-- `hash_value = lambda v: hashlib.sha1(v).hexdigest() if
isinstance(v, np.ndarray) else v`. -/
def hash_value : Val → HVal
  | .arr a => .sha1 a
  | .scl n => .plain (.scl n)

/-- A key of `_func_cache`: `(expr, hashable_syms, hashable_givens)`. The
symbols produced by `_flatten(syms)` are theano variables, not ndarrays, so
`hash_value` leaves them verbatim. -/
abbrev CKey := Nat × List String × List (String × HVal)

/-- The process-wide `_func_cache` dictionary, plus a supply of fresh
identities for newly compiled theano functions. -/
structure FuncCache where
  entries : List (CKey × Nat)
  nextId : Nat

def emptyFuncCache : FuncCache := { entries := [], nextId := 0 }

/-- `key in _func_cache.keys()` / `_func_cache[key]` lookup. -/
def cacheFind : List (CKey × Nat) → CKey → Option Nat
  | [], _ => none
  | (k, f) :: rest, key => if k = key then some f else cacheFind rest key

/-- What one `seval` call did: which compiled evaluator it used, whether it
compiled a new one, and the function application it performed (the evaluator
identity applied to the positionally extracted arguments), or the error
`_extract_vals` raised. -/
structure SevalResult where
  func : Nat
  compiled : Bool
  call : Except String (Nat × List PyVal)

/-- `seval` from `theano_func_wrapper.py`: build the cache key from the
expression identity, the flattened symbol signature and the content-hashed
givens; reuse the cached compiled function on a hit, otherwise compile a
fresh one (`theano.function(sargs, expr, ...)`) and cache it under the key;
finally extract the argument values and call the function on them. -/
def seval (expr : Nat) (syms : List (String × SNode)) (vals defaults : PyVal)
    (givens : List (String × Val)) (st : FuncCache) :
    SevalResult × FuncCache :=
  let hashable_givens := givens.map (fun p => (p.1, hash_value p.2))
  let hashable_syms := _flatten syms
  let key : CKey := (expr, hashable_syms, hashable_givens)
  match cacheFind st.entries key with
  | some f =>
    ({ func := f, compiled := false,
       call := (_extract_vals syms vals defaults).map (fun args => (f, args)) },
     st)
  | none =>
    let f := st.nextId
    ({ func := f, compiled := true,
       call := (_extract_vals syms vals defaults).map (fun args => (f, args)) },
     { entries := (key, f) :: st.entries, nextId := st.nextId + 1 })

/-- Claim C5: for every N, the Complete variant's sample() returns the N×N
all-ones adjacency matrix, and its log_p is exactly 0 for every input. -/
theorem complete_graph_sample_ones_logp_zero :
    ∀ (N : ℕ) (i j : Fin N),
      complete_sample N i j = 1 ∧ complete_A N i j = 1 ∧ complete_log_p = 0 := by
  intro N i j
  exact ⟨rfl, rfl, rfl⟩

/-- Claim C1, counterexample: in the LatentDistance variant with locations
all zero and no refractory override, the value passed to `T.log(1 - pA)` at
entry (0,0) is 1 - exp 0 = 0, which is strictly below the claimed lower
clamp 1e-8; in the StochasticBlock variant with B ≡ 1 the value passed to
`T.log(B)` is 1, strictly above the claimed upper clamp 1 - 1e-8. -/
theorem log_clamp_counterexample :
    @ld_logArgNotA 1 1 none 1 (fun _ _ => (0 : ℝ)) 0 0 < 1e-8 ∧
    1 - 1e-8 < @sbm_logArgB 1 (fun _ _ => (1 : ℝ)) 0 0 := by
  constructor
  · have hD : @ld_D 1 1 (fun _ _ => (0 : ℝ)) 0 0 = 0 := by
      simp [ld_D]
    simp only [ld_logArgNotA, ld_pA, hD]
    norm_num [Real.exp_zero]
  · simp only [sbm_logArgB]
    norm_num

/-- Claim C1, amended: only the ErdosRenyi variant clamps the values it
passes to `log`, and only one-sidedly — the argument of the A-term log is
clamped from above by 1 - 1e-8, and the argument of the (1-A)-term log is
clamped from below by 1e-8; the StochasticBlock and LatentDistance variants
pass their probabilities to `log` unclamped. -/
theorem er_log_args_one_sided_clamp :
    ∀ (N : ℕ) (rho0 : ℝ) (rr : Option ℝ) (i j : Fin N),
      er_logArgA N rho0 rr i j ≤ 1 - 1e-8 ∧
      1e-8 ≤ er_logArgNotA N rho0 rr i j := by
  intro N rho0 rr i j
  exact ⟨min_le_left _ _, le_max_left _ _⟩

/-- Claim C4, counterexample: the ErdosRenyi and LatentDistance variants
create a `lkhd_scale` attribute in `__init__`, but the StochasticBlock
variant does not, so not every variant with a Bernoulli likelihood term
carries the scalar multiplier. -/
theorem lkhd_scale_attr_counterexample :
    "lkhd_scale" ∈ erdosRenyiGraph_attrs ∧
    "lkhd_scale" ∈ ldGraph_attrs ∧
    "lkhd_scale" ∉ sbmGraph_attrs := by
  refine ⟨?_, ?_, ?_⟩ <;> decide

/-- Claim C4, amended: the ErdosRenyi and LatentDistance variants carry a
scalar `lkhd_scale` with default value 1 that scales the likelihood term
only (changing the scale changes `log_p` by exactly `(scale - 1) * lkhd`,
leaving every prior term untouched); the StochasticBlock variant has no
`lkhd_scale`, its `log_p` being the unscaled sum of the two prior terms and
the likelihood term. -/
theorem lkhd_scale_scales_likelihood_only :
    (∀ (N : ℕ) (rho0 : ℝ) (rr : Option ℝ) (scale : ℝ) (A : Fin N → Fin N → ℝ),
      er_log_p N rho0 rr scale A - er_log_p N rho0 rr 1 A
        = (scale - 1) * er_lkhd N rho0 rr A) ∧
    (∀ (N Dd : ℕ) (rr : Option ℝ) (delta : ℝ) (L : Fin N → Fin Dd → ℝ)
        (A : Fin N → Fin N → ℝ) (scale : ℝ) (locp : (Fin N → Fin Dd → ℝ) → ℝ),
      ld_log_p rr delta L A scale locp - ld_log_p rr delta L A 1 locp
        = (scale - 1) * ld_lkhd rr delta L A) ∧
    lkhd_scale_default = 1 ∧
    (∀ (N R : ℕ) (b0 b1 : ℝ) (alpha0 alpha : Fin R → ℝ)
        (A : Fin N → Fin N → ℝ) (B : Fin R → Fin R → ℝ) (Y : Fin N → Fin R),
      sbm_log_p b0 b1 alpha0 alpha A B Y
        = sbm_log_p_B b0 b1 B + sbm_log_p_alpha alpha0 alpha
          + sbm_log_p_A A B Y) := by
  refine ⟨?_, ?_, rfl, ?_⟩
  · intro N rho0 rr scale A
    simp only [er_log_p]
    ring
  · intro N Dd rr delta L A scale locp
    simp only [ld_log_p]
    ring
  · intro N R b0 b1 alpha0 alpha A B Y
    rfl

/-- Claim C8: in the LatentDistance variant, for fixed nonzero delta and two
off-diagonal pairs (i,j), (i,k) with the (i,j) locations strictly closer,
the edge probability of (i,j) is at least that of (i,k). -/
theorem ld_edge_prob_monotone :
    ∀ (N Dd : ℕ) (L : Fin N → Fin Dd → ℝ) (delta : ℝ) (rr : Option ℝ)
      (i j k : Fin N), delta ≠ 0 → j ≠ i → k ≠ i →
      Real.sqrt (ld_D L i j) < Real.sqrt (ld_D L i k) →
      ld_pA rr delta L i k ≤ ld_pA rr delta L i j := by
  intro N Dd L delta rr i j k hdelta hj hk hlt
  have hD : ld_D L i j < ld_D L i k := by
    by_contra hcon
    push_neg at hcon
    exact absurd (Real.sqrt_le_sqrt hcon) (not_le.mpr hlt)
  have hd2 : (0 : ℝ) < delta ^ 2 := pow_two_pos_of_ne_zero hdelta
  have hexp : Real.exp (-0.5 * ld_D L i k / delta ^ 2)
      ≤ Real.exp (-0.5 * ld_D L i j / delta ^ 2) := by
    apply Real.exp_le_exp.mpr
    rw [div_le_div_iff₀ hd2 hd2]
    nlinarith
  cases rr with
  | none => simpa [ld_pA] using hexp
  | some r =>
    simp only [ld_pA]
    rw [if_neg (Ne.symm hj), if_neg (Ne.symm hk)]
    simpa using hexp

/-- Concrete locations for the C8 witness: three nodes on a line in one
latent dimension, at coordinates 0, 0, 1. -/
noncomputable def ldWitnessL : Fin 3 → Fin 1 → ℝ :=
  fun i _ => if i.val = 2 then 1 else 0

/-- Witness for C8 at delta = 1, i = 0, j = 1, k = 2. -/
theorem ld_edge_prob_monotone_witness :
    ((1 : ℝ) ≠ 0 ∧ (1 : Fin 3) ≠ 0 ∧ (2 : Fin 3) ≠ 0 ∧
      Real.sqrt (ld_D ldWitnessL 0 1) < Real.sqrt (ld_D ldWitnessL 0 2)) ∧
    ld_pA none 1 ldWitnessL 0 2 ≤ ld_pA none 1 ldWitnessL 0 1 := by
  have h1 : (1 : ℝ) ≠ 0 := one_ne_zero
  have h2 : (1 : Fin 3) ≠ 0 := by decide
  have h3 : (2 : Fin 3) ≠ 0 := by decide
  have hD1 : ld_D ldWitnessL 0 1 = 0 := by
    simp [ld_D, ldWitnessL]
  have hD2 : ld_D ldWitnessL 0 2 = 1 := by
    simp [ld_D, ldWitnessL]
  have h4 : Real.sqrt (ld_D ldWitnessL 0 1) < Real.sqrt (ld_D ldWitnessL 0 2) := by
    rw [hD1, hD2, Real.sqrt_zero, Real.sqrt_one]
    exact zero_lt_one
  exact ⟨⟨h1, h2, h3, h4⟩,
    ld_edge_prob_monotone 3 1 ldWitnessL 1 none 0 1 2 h1 h2 h3 h4⟩

/-- Claim C7: for every config whose graph type string is none of the
recognized variants (after lower-casing), `create_graph_component` fails
with the construction-time error and produces no model object. -/
theorem create_unrecognized_type :
    ∀ (prms : List (String × PrmVal)) (s : String),
      prms.lookup "type" = some (.str s) →
      pyLower s ∉ ["complete", "erdos_renyi", "erdosrenyi", "sbm", "distance"] →
      create_graph_component prms
        = .error ("Unrecognized graph model: " ++ pyLower s) := by
  intro prms s ht hn
  simp only [List.mem_cons, List.mem_singleton, not_or] at hn
  obtain ⟨h1, h2, h3, h4, h5⟩ := hn
  simp only [create_graph_component, pyKeyGet, ht]
  simp [h1, h2, h3, h4, h5]

/-- Witness for C7 at the concrete config {type: "foo"}. -/
theorem create_unrecognized_type_witness :
    (([(("type" : String), PrmVal.str "foo")].lookup "type"
        = some (PrmVal.str "foo")) ∧
      (pyLower "foo" ∉
        ["complete", "erdos_renyi", "erdosrenyi", "sbm", "distance"])) ∧
    create_graph_component [("type", PrmVal.str "foo")]
      = .error ("Unrecognized graph model: " ++ pyLower "foo") := by
  refine ⟨⟨rfl, by decide⟩, ?_⟩
  exact create_unrecognized_type [("type", PrmVal.str "foo")] "foo" rfl (by decide)

/-- Claim C10: a LatentDistance config carrying `N_dims`, `delta` and
`location_prior` but no `sorted` key constructs successfully (also with or
without the genuinely optional `rho_refractory`, whose presence is only
tested, never required), yet every call to `sample()` fails with a
key-lookup error on `sorted`. -/
theorem ld_sample_requires_sorted :
    ∀ (prms : List (String × PrmVal)),
      (prms.lookup "N_dims").isSome = true →
      (prms.lookup "location_prior").isSome = true →
      (prms.lookup "delta").isSome = true →
      prms.lookup "sorted" = none →
      (∃ m, latentDistance_init prms = .ok m) ∧
      latentDistance_sample_reads prms = .error ("KeyError: " ++ "sorted") := by
  intro prms h1 h2 _h3 h4
  constructor
  · cases hnd : prms.lookup "N_dims" with
    | none => rw [hnd] at h1; cases h1
    | some nd =>
      cases hlp : prms.lookup "location_prior" with
      | none => rw [hlp] at h2; cases h2
      | some lp =>
        exact ⟨{ N_dims := nd, location_prior := lp,
                 rho_refractory := prms.lookup "rho_refractory" },
          by simp [latentDistance_init, pyKeyGet, hnd, hlp, bind, Except.bind]⟩
  · simp [latentDistance_sample_reads, pyKeyGet, h4, bind, Except.bind]

/-- Witness for C10 at a concrete config with `N_dims`, `delta`,
`location_prior` and no `sorted`. -/
theorem ld_sample_requires_sorted_witness :
    (((([("N_dims", PrmVal.int 2), ("delta", PrmVal.int 1),
        ("location_prior", PrmVal.ext "gaussian")]
          : List (String × PrmVal)).lookup "N_dims").isSome = true) ∧
      ((([("N_dims", PrmVal.int 2), ("delta", PrmVal.int 1),
        ("location_prior", PrmVal.ext "gaussian")]
          : List (String × PrmVal)).lookup "location_prior").isSome = true) ∧
      ((([("N_dims", PrmVal.int 2), ("delta", PrmVal.int 1),
        ("location_prior", PrmVal.ext "gaussian")]
          : List (String × PrmVal)).lookup "delta").isSome = true) ∧
      (([("N_dims", PrmVal.int 2), ("delta", PrmVal.int 1),
        ("location_prior", PrmVal.ext "gaussian")]
          : List (String × PrmVal)).lookup "sorted" = none)) ∧
    ((∃ m, latentDistance_init
        [("N_dims", PrmVal.int 2), ("delta", PrmVal.int 1),
         ("location_prior", PrmVal.ext "gaussian")] = .ok m) ∧
      latentDistance_sample_reads
        [("N_dims", PrmVal.int 2), ("delta", PrmVal.int 1),
         ("location_prior", PrmVal.ext "gaussian")]
        = .error ("KeyError: " ++ "sorted")) := by
  refine ⟨⟨rfl, rfl, rfl, rfl⟩, ?_⟩
  exact ld_sample_requires_sorted _ rfl rfl rfl rfl

/-- `hash_value` is injective: distinct contents have distinct digests
(content addressing). -/
theorem hash_value_inj : ∀ (v w : Val), hash_value v = hash_value w → v = w := by
  intro v w h
  cases v <;> cases w <;> simp [hash_value] at h <;> simp [h]

/-- Content-hashing the givens list entrywise is injective. -/
theorem hashGivens_inj : ∀ (g g' : List (String × Val)),
    g.map (fun p => (p.1, hash_value p.2))
      = g'.map (fun p => (p.1, hash_value p.2)) → g = g' := by
  intro g
  induction g with
  | nil =>
    intro g' h
    cases g' with
    | nil => rfl
    | cons q t => cases h
  | cons p t ih =>
    intro g' h
    cases g' with
    | nil => cases h
    | cons q t2 =>
      simp only [List.map_cons, List.cons.injEq, Prod.mk.injEq] at h
      obtain ⟨⟨hk, hv⟩, ht⟩ := h
      have := hash_value_inj _ _ hv
      simp [Prod.ext_iff, hk, this, ih t2 ht]

/-- Claim C2: starting from an empty cache, a first `seval` call compiles;
a second call with the same expression, the same flattened free-variable
signature and content-identical givens reuses the same compiled evaluator
without compiling; a third call whose givens differ compiles exactly one
new evaluator, distinct from the cached one, and adds exactly one cache
entry. -/
theorem seval_cache_spec :
    ∀ (expr : ℕ) (syms syms2 syms3 : List (String × SNode))
      (vals1 vals2 vals3 d1 d2 d3 : PyVal) (g g3 : List (String × Val)),
      _flatten syms2 = _flatten syms →
      _flatten syms3 = _flatten syms →
      g3 ≠ g →
      (let r1 := seval expr syms vals1 d1 g emptyFuncCache
       let r2 := seval expr syms2 vals2 d2 g r1.2
       let r3 := seval expr syms3 vals3 d3 g3 r2.2
       r1.1.compiled = true ∧ r2.1.compiled = false ∧
       r2.1.func = r1.1.func ∧ r3.1.compiled = true ∧
       r3.1.func ≠ r1.1.func ∧
       r3.2.entries.length = r2.2.entries.length + 1 ∧
       r2.2.entries.length = r1.2.entries.length) := by
  intro expr syms syms2 syms3 vals1 vals2 vals3 d1 d2 d3 g g3 h2 h3 hne
  have hg : g3.map (fun p => (p.1, hash_value p.2))
      ≠ g.map (fun p => (p.1, hash_value p.2)) := by
    intro he
    exact hne (hashGivens_inj _ _ he)
  have hg' : g.map (fun p => (p.1, hash_value p.2))
      ≠ g3.map (fun p => (p.1, hash_value p.2)) := fun he => hg he.symm
  simp only [seval, emptyFuncCache, cacheFind, h2, h3]
  simp [Prod.ext_iff, hg, hg', cacheFind]

instance : IsTotal (String × SNode) (fun a b => a.1 ≤ b.1) :=
  ⟨fun a b => le_total a.1 b.1⟩

instance : IsTrans (String × SNode) (fun a b => a.1 ≤ b.1) :=
  ⟨fun _ _ _ hab hbc => le_trans hab hbc⟩

/-- Claim C3: the key order used at build time and at call time is the same
canonical one — (1) at every level the items are sorted ascending by key;
(2) the i-th symbol `_flatten` produces is the symbol of the i-th leaf of
the tree in canonical order; (3) whenever `_extract_vals` succeeds, its i-th
value is precisely the binding (vals-over-defaults resolution) of the key
path of that same i-th leaf, and the two lists have equal length. -/
theorem flatten_extract_positional :
    (∀ d : List (String × SNode),
      List.Pairwise (fun a b : String × SNode => a.1 ≤ b.1) (sortByKey d)) ∧
    (∀ syms : List (String × SNode),
      _flatten syms = (leavesD syms).map Prod.snd) ∧
    (∀ (syms : List (String × SNode)) (vals defaults : PyVal)
        (out : List PyVal),
      _extract_vals syms vals defaults = .ok out →
      out = (leavesD syms).map (fun p => resolvePath vals defaults p.1) ∧
      out.length = (_flatten syms).length) := by
  refine ⟨?_, ?_, ?_⟩
  · intro d
    exact List.sorted_insertionSort _ d
  · intro syms
    rw [_flatten, leavesD]
    exact flattenItems_eq_leaves (sizeOf (sortByKey syms)) _ le_rfl
  · intro syms vals defaults out hok
    rw [_extract_vals.eq_def] at hok
    have h1 := extractItems_eq_leaves (sizeOf (sortByKey syms)) _ vals defaults
      out le_rfl hok
    rw [leavesD]
    refine ⟨h1, ?_⟩
    rw [_flatten, flattenItems_eq_leaves (sizeOf (sortByKey syms)) _ le_rfl, h1]
    simp

/-- Witness for C3 on a nested two-level tree with keys inserted out of
order: vals binds a.x and b, defaults binds a.y. -/
theorem flatten_extract_positional_witness :
    (_extract_vals [("b", .sym "B"), ("a", .sub [("y", .sym "Y"), ("x", .sym "X")])]
        (.dict [("a", .dict [("x", .base (.scl 1))]), ("b", .base (.scl 2))])
        (.dict [("a", .dict [("y", .base (.scl 3))])])
      = .ok [.base (.scl 1), .base (.scl 3), .base (.scl 2)]) ∧
    ([PyVal.base (.scl 1), .base (.scl 3), .base (.scl 2)]
        = (leavesD [("b", .sym "B"), ("a", .sub [("y", .sym "Y"), ("x", .sym "X")])]).map
            (fun p => resolvePath
              (.dict [("a", .dict [("x", .base (.scl 1))]), ("b", .base (.scl 2))])
              (.dict [("a", .dict [("y", .base (.scl 3))])]) p.1) ∧
      ([PyVal.base (.scl 1), .base (.scl 3), .base (.scl 2)] : List PyVal).length
        = (_flatten [("b", .sym "B"), ("a", .sub [("y", .sym "Y"), ("x", .sym "X")])]).length) := by
  have hok : _extract_vals [("b", .sym "B"), ("a", .sub [("y", .sym "Y"), ("x", .sym "X")])]
      (.dict [("a", .dict [("x", .base (.scl 1))]), ("b", .base (.scl 2))])
      (.dict [("a", .dict [("y", .base (.scl 3))])])
      = .ok [.base (.scl 1), .base (.scl 3), .base (.scl 2)] := by
    have hs1 : sortByKey [("b", .sym "B"), ("a", .sub [("y", .sym "Y"), ("x", .sym "X")])]
        = [("a", .sub [("y", .sym "Y"), ("x", .sym "X")]), ("b", .sym "B")] := by
      simp +decide [sortByKey, List.insertionSort, List.orderedInsert]
    have hs2 : sortByKey [("y", SNode.sym "Y"), ("x", SNode.sym "X")]
        = [("x", SNode.sym "X"), ("y", SNode.sym "Y")] := by
      simp +decide [sortByKey, List.insertionSort, List.orderedInsert]
    simp +decide [_extract_vals, extractItems, hs1, hs2, pyget, isVNone,
      List.lookup, bind, Except.bind, pure, Except.pure]
  exact ⟨hok, (flatten_extract_positional.2.2 _ _ _ _ hok)⟩

/-- Witness for C2 at a concrete expression, symbol tree and givens. -/
theorem seval_cache_spec_witness :
    (_flatten [("x", SNode.sym "x")] = _flatten [("x", SNode.sym "x")] ∧
      ([("A", Val.arr [1, 0])] : List (String × Val)) ≠ []) ∧
    (let r1 := seval 0 [("x", SNode.sym "x")] .vnone .vnone [] emptyFuncCache
     let r2 := seval 0 [("x", SNode.sym "x")] .vnone .vnone [] r1.2
     let r3 := seval 0 [("x", SNode.sym "x")] .vnone .vnone
       [("A", Val.arr [1, 0])] r2.2
     r1.1.compiled = true ∧ r2.1.compiled = false ∧
     r2.1.func = r1.1.func ∧ r3.1.compiled = true ∧
     r3.1.func ≠ r1.1.func ∧
     r3.2.entries.length = r2.2.entries.length + 1 ∧
     r2.2.entries.length = r1.2.entries.length) :=
  ⟨⟨rfl, by decide⟩,
    seval_cache_spec 0 [("x", SNode.sym "x")] [("x", SNode.sym "x")]
      [("x", SNode.sym "x")] .vnone .vnone .vnone .vnone .vnone .vnone
      [] [("A", Val.arr [1, 0])] rfl rfl (by decide)⟩

/-- Claim C6, counterexample: the failure does not name the offending
symbol path. The leaf at path a.x is missing from both trees (its parent
dict `a` is present in both), yet the error message is the one naming the
bare key `x` — identical to the message produced for a tree whose missing
leaf sits at the top-level path `x` — and differs from a message naming the
path `a.x`. -/
theorem extract_missing_path_counterexample :
    _extract_vals [("a", .sub [("x", .sym "X")])]
        (.dict [("a", .dict [])]) (.dict [("a", .dict [])])
      = .error (missingMsg "x") ∧
    _extract_vals [("x", .sym "X")] .vnone .vnone
      = .error (missingMsg "x") ∧
    missingMsg "x" ≠ missingMsg "a.x" := by
  refine ⟨?_, ?_, by decide⟩
  · have hs1 : sortByKey [("a", SNode.sub [("x", SNode.sym "X")])]
        = [("a", SNode.sub [("x", SNode.sym "X")])] := rfl
    have hs2 : sortByKey [("x", SNode.sym "X")] = [("x", SNode.sym "X")] := rfl
    rw [_extract_vals, hs1, extractItems_cons]
    simp +decide [pyget, isVNone, List.lookup, _extract_vals, hs2,
      extractItems_cons, extractItems_nil, bind, Except.bind]
  · have hs2 : sortByKey [("x", SNode.sym "X")] = [("x", SNode.sym "X")] := rfl
    rw [_extract_vals, hs2, extractItems_cons]
    simp [pyget, isVNone]

/-- Claim C6, amended: (1) whenever some symbol of the tree resolves to
`None` in both the value tree and the defaults, `_extract_vals` fails, with
the error message naming the offending symbol's dict key at the level where
resolution failed (the innermost path component reached, not the full
path); (2) when no symbol is missing the call succeeds; (3) a leaf bound to
a non-`None` value in the value tree is extracted from the value tree,
whatever the defaults hold (value tree takes precedence). -/
theorem extract_missing_and_precedence :
    (∀ (syms : List (String × SNode)) (vals defaults : PyVal) (k : String),
      firstMiss syms vals defaults = some k →
      _extract_vals syms vals defaults = .error (missingMsg k)) ∧
    (∀ (syms : List (String × SNode)) (vals defaults : PyVal),
      firstMiss syms vals defaults = none →
      ∃ out, _extract_vals syms vals defaults = .ok out) ∧
    (∀ (k s : String) (vals defaults : PyVal),
      isVNone (pyget vals k) = false →
      _extract_vals [(k, .sym s)] vals defaults = .ok [pyget vals k]) := by
  refine ⟨?_, ?_, ?_⟩
  · intro syms vals defaults k hm
    rw [firstMiss] at hm
    rw [_extract_vals]
    exact extractItems_err_of_miss (sizeOf (sortByKey syms)) _ _ _ _ le_rfl hm
  · intro syms vals defaults hm
    rw [firstMiss] at hm
    rw [_extract_vals]
    exact extractItems_ok_of_nomiss (sizeOf (sortByKey syms)) _ _ _ le_rfl hm
  · intro k s vals defaults hv
    have hs : sortByKey [(k, SNode.sym s)] = [(k, SNode.sym s)] := rfl
    rw [_extract_vals, hs, extractItems_cons, extractItems_nil]
    simp [hv, bind, Except.bind, pure, Except.pure]

/-- Witness for C6: a missing symbol makes extraction fail with the message
naming it; no missing symbol lets extraction succeed; a symbol bound in both
trees is taken from the value tree. -/
theorem extract_missing_and_precedence_witness :
    (firstMiss [("x", SNode.sym "x")] .vnone .vnone = some "x" ∧
      _extract_vals [("x", SNode.sym "x")] .vnone .vnone
        = .error (missingMsg "x")) ∧
    (firstMiss [("x", SNode.sym "x")] (.dict [("x", .base (.scl 5))]) .vnone
        = none ∧
      (∃ out, _extract_vals [("x", SNode.sym "x")]
        (.dict [("x", .base (.scl 5))]) .vnone = .ok out)) ∧
    (isVNone (pyget (.dict [("x", .base (.scl 5))]) "x") = false ∧
      _extract_vals [("x", SNode.sym "x")] (.dict [("x", .base (.scl 5))])
        (.dict [("x", .base (.scl 7))])
        = .ok [pyget (.dict [("x", .base (.scl 5))]) "x"]) := by
  have h1 : firstMiss [("x", SNode.sym "x")] .vnone .vnone = some "x" := by
    rw [firstMiss, show sortByKey [("x", SNode.sym "x")] = [("x", SNode.sym "x")] from rfl,
      firstMissItems_cons]
    simp [pyget, isVNone]
  have h2 : firstMiss [("x", SNode.sym "x")] (.dict [("x", .base (.scl 5))]) .vnone
      = none := by
    rw [firstMiss, show sortByKey [("x", SNode.sym "x")] = [("x", SNode.sym "x")] from rfl,
      firstMissItems_cons]
    simp +decide [pyget, isVNone, List.lookup, firstMissItems_nil]
  have h3 : isVNone (pyget (.dict [("x", PyVal.base (.scl 5))]) "x") = false := by
    simp +decide [pyget, isVNone, List.lookup]
  exact ⟨⟨h1, extract_missing_and_precedence.1 _ _ _ _ h1⟩,
    ⟨h2, extract_missing_and_precedence.2.1 _ _ _ h2⟩,
    ⟨h3, extract_missing_and_precedence.2.2 "x" "x" _ _ h3⟩⟩

theorem isVNone_vnone : isVNone PyVal.vnone = true := rfl

/-- Claim C9: an explicit `None` binding in the value tree is treated as
absent — when defaults supply a non-`None` value the default is used, and
only when both lookups yield `None` does the call fail. -/
theorem extract_none_binding :
    (∀ (k s : String) (d dd : List (String × PyVal)) (v : PyVal),
      d.lookup k = some .vnone → dd.lookup k = some v → isVNone v = false →
      _extract_vals [(k, .sym s)] (.dict d) (.dict dd) = .ok [v]) ∧
    (∀ (k s : String) (d dd : List (String × PyVal)),
      d.lookup k = some .vnone → dd.lookup k = some .vnone →
      _extract_vals [(k, .sym s)] (.dict d) (.dict dd)
        = .error (missingMsg k)) := by
  constructor
  · intro k s d dd v hd hdd hv
    have hs : sortByKey [(k, SNode.sym s)] = [(k, SNode.sym s)] := rfl
    rw [_extract_vals, hs, extractItems_cons, extractItems_nil]
    simp [pyget, hd, hdd, isVNone_vnone, hv, bind, Except.bind, pure, Except.pure]
  · intro k s d dd hd hdd
    have hs : sortByKey [(k, SNode.sym s)] = [(k, SNode.sym s)] := rfl
    rw [_extract_vals, hs, extractItems_cons]
    simp [pyget, hd, hdd, isVNone_vnone]

/-- Witness for C9 with an explicit None binding for x in vals and the
default 9 for x in defaults. -/
theorem extract_none_binding_witness :
    (([("x", PyVal.vnone)].lookup "x" = some PyVal.vnone ∧
      ([("x", PyVal.base (.scl 9))].lookup "x" = some (PyVal.base (.scl 9))) ∧
      isVNone (PyVal.base (.scl 9)) = false) ∧
      _extract_vals [("x", .sym "x")] (.dict [("x", .vnone)])
        (.dict [("x", .base (.scl 9))]) = .ok [.base (.scl 9)]) ∧
    (([("x", PyVal.vnone)].lookup "x" = some PyVal.vnone) ∧
      _extract_vals [("x", .sym "x")] (.dict [("x", .vnone)])
        (.dict [("x", .vnone)]) = .error (missingMsg "x")) :=
  ⟨⟨⟨rfl, rfl, rfl⟩,
    extract_none_binding.1 "x" "x" _ _ _ rfl rfl rfl⟩,
   ⟨rfl, extract_none_binding.2 "x" "x" _ _ rfl rfl⟩⟩
